import Mathlib

/-!
Verification development for the Herenboeren repository.

The repository is an early-stage Stencil/Ionic web-app scaffold: a root
shell component (hb-app), a login page (hb-login), a home page (hb-home),
an i18next bootstrap module (src/global/translation.ts), a component test,
and a README describing an intended multi-store backend data layer.

The first half of this file is a shallow embedding of the code that is
present in the repository.  The second half models, from the design
specification, the backend data-access layer (domain model registry,
store router, unified query facade, consistency coordinator) that the
README describes but that no source file implements; each such definition
carries a doc comment starting with `Modelled from the spec:`.
-/

namespace Herenboeren

/-! ## Repository inventory -/

/-- The kind of a source module of the repository.  Kinds `scheduler`,
`storageEngine` and `backendDataAccess` are included so that their absence
from the actual module list is a contentful statement. -/
inductive ModuleKind where
  | uiComponent (tag : String)
  | i18nBootstrap
  | componentTest
  | readme
  | scheduler
  | storageEngine
  | backendDataAccess
deriving DecidableEq, Repr

/-- Whether a module kind is one of the artifacts the repository actually
contains: a UI component, the i18n bootstrap, a component test or the
README. -/
def ModuleKind.isAppArtifact : ModuleKind → Bool
  | ModuleKind.uiComponent _ => true
  | ModuleKind.i18nBootstrap => true
  | ModuleKind.componentTest => true
  | ModuleKind.readme => true
  | _ => false

/-- A source module of the repository: a path (or description) and its kind. -/
structure SourceModule where
  path : String
  kind : ModuleKind
deriving DecidableEq, Repr

/-- The complete inventory of the repository's source files: the hb-app root
shell, its component test, the hb-login page, the hb-home page (both classes
live in hb-login.tsx), the i18next bootstrap, and the README. -/
def repositoryModules : List SourceModule :=
  [{ path := "src/components/hb-app/hb-app.tsx", kind := ModuleKind.uiComponent ("hb-app") },
   { path := "src/components/hb-app/hb-app.spec.ts", kind := ModuleKind.componentTest },
   { path := "src/components/hb-login/hb-login.tsx", kind := ModuleKind.uiComponent ("hb-login") },
   { path := "src/components/hb-login/hb-login.tsx", kind := ModuleKind.uiComponent ("hb-home") },
   { path := "src/global/translation.ts", kind := ModuleKind.i18nBootstrap },
   { path := "README.md", kind := ModuleKind.readme }]

/-! ## The i18next handle and the hb-login component -/

/-- The observable state of the i18next handle: its current language. -/
structure I18nState where
  language : String
deriving DecidableEq, Repr

/-- `i18n.changeLanguage(l)`: afterwards `i18n.language` is `l`. -/
def changeLanguage (_s : I18nState) (l : String) : I18nState :=
  { language := l }

/-- The state of the hb-login component (class `AppHome` in hb-login.tsx)
together with the document state it mutates: the injected i18n handle, the
`lang` component state, and the value of the `--ion-color-primary` CSS
custom property on the document element (`none` when never set). -/
structure LoginState where
  i18n : I18nState
  lang : String
  cssPrimary : Option String
deriving DecidableEq, Repr

/-- Embedding of `AppHome.changeLang` from hb-login.tsx: if the current
i18n language is `nl`, switch to `en` and set the primary color to `red`;
otherwise switch to `nl` and set the primary color to `green`; finally
assign the component's `lang` state from the (updated) i18n language. -/
def changeLang (s : LoginState) : LoginState :=
  if s.i18n.language = "nl" then
    let i18nNext := changeLanguage s.i18n ("en")
    { i18n := i18nNext, cssPrimary := some ("red"), lang := i18nNext.language }
  else
    let i18nNext := changeLanguage s.i18n ("nl")
    { i18n := i18nNext, cssPrimary := some ("green"), lang := i18nNext.language }

/-- Embedding of `AppHome.componentWillLoad`: initialises the `lang`
component state from the i18n language. -/
def componentWillLoad (s : LoginState) : LoginState :=
  { s with lang := s.i18n.language }

/-! ## The hb-app root component's service-worker update handler -/

/-- One observable step performed by `HbApp.onSWUpdate` in hb-app.tsx. -/
inductive SWUpdateEvent where
  | createToast (message : String) (showCloseButton : Bool) (closeButtonText : String)
  | presentToast
  | toastWillDismiss
  | reloadPage
deriving DecidableEq, Repr

/-- Embedding of `HbApp.onSWUpdate` as its (awaited, hence sequential)
event trace: create the toast with message `New version available` and a
close button labelled `Reload`, present it, wait for it to begin
dismissing, then reload the page. -/
def onSWUpdate : List SWUpdateEvent :=
  [SWUpdateEvent.createToast ("New version available") true ("Reload"),
   SWUpdateEvent.presentToast,
   SWUpdateEvent.toastWillDismiss,
   SWUpdateEvent.reloadPage]

/-! ## Concrete loader states used by the witnesses -/

/-- A login state whose i18n language is `nl`. -/
def loginNl : LoginState :=
  { i18n := { language := "nl" }, lang := "nl", cssPrimary := none }

/-- A login state whose i18n language is `en`. -/
def loginEn : LoginState :=
  { i18n := { language := "en" }, lang := "en", cssPrimary := none }

/-! ## The backend data-access layer

No source file implements the backend; the definitions below are modelled
from the design specification of the unified multi-model data-access layer
(domain model registry, store router, unified query facade, consistency
coordinator). -/

/-- Modelled from the spec: the four store categories of the polyglot
backend (structured-relational facts, free-text search index, time-series
metrics, blob storage). -/
inductive StoreCategory where
  | structured
  | search
  | timeseries
  | blob
deriving DecidableEq, Repr

/-- The fixed list of all store categories. -/
def storeCategories : List StoreCategory :=
  [StoreCategory.structured, StoreCategory.search,
   StoreCategory.timeseries, StoreCategory.blob]

/-- Modelled from the spec: a store-agnostic, globally unique entity
identifier; the entity type is carried so the registry plan for the
entity can be looked up. -/
structure EntityId where
  entityType : String
  key : String
deriving DecidableEq, Repr

/-- Modelled from the spec: a logical record, mapping attribute names to
optional values (`none` means the attribute is absent). -/
abbrev Record := String → Option String

/-- The empty record: every attribute is absent. -/
def emptyRecord : Record := fun _ => none

/-- Merge an update record over a base record: attributes present in the
update override the base, absent ones fall through to the base. -/
def Record.merge (base upd : Record) : Record :=
  fun a =>
    match upd a with
    | some v => some v
    | none => base a

/-- Modelled from the spec: a decomposition plan, defining which store
category each attribute of an entity type lives in. -/
abbrev DecompositionPlan := String → StoreCategory

/-- Modelled from the spec: the Domain Model Registry, holding for each
registered entity type its decomposition plan. -/
abbrev Registry := List (String × DecompositionPlan)

/-- `get(entityType)` on the registry: the decomposition plan of a
registered entity type, `none` for unregistered types. -/
def Registry.get (r : Registry) (entityType : String) : Option DecompositionPlan :=
  (r.find? (fun e => decide (e.1 = entityType))).map Prod.snd

/-- Modelled from the spec: the routing error raised for an unregistered
entity type. -/
inductive RoutingError where
  | unregisteredEntityType (entityType : String)
deriving DecidableEq, Repr

/-- Modelled from the spec: a store adapter handle, identifying the
backing store an attribute is routed to. -/
structure StoreHandle where
  category : StoreCategory
deriving DecidableEq, Repr

/-- Modelled from the spec: the Store Router's `route(entityType,
attribute)`: a pure lookup of the registered plan, returning the handle of
the store the attribute lives in, or `RoutingError` for unregistered
entity types. -/
def route (r : Registry) (entityType attr : String) :
    Except RoutingError StoreHandle :=
  match Registry.get r entityType with
  | some plan => Except.ok { category := plan attr }
  | none => Except.error (RoutingError.unregisteredEntityType entityType)

/-- Modelled from the spec: the state of one store adapter: whether it is
currently available, and the sub-records it holds, indexed by the shared
entity identifier. -/
structure StoreState where
  available : Bool
  data : EntityId → Record

/-- The joint state of the four store adapters. -/
abbrev Stores := StoreCategory → StoreState

/-- The sub-record of a partial record destined for one store category
under a decomposition plan: exactly the attributes the plan routes there. -/
def subRecordFor (plan : DecompositionPlan) (c : StoreCategory) (p : Record) : Record :=
  fun a => if plan a = c then p a else none

/-- A store adapter's `put(id, sub)`: merge the sub-record into the
record held for that entity identifier. -/
def storePut (st : StoreState) (id : EntityId) (sub : Record) : StoreState :=
  { st with data := fun i => if i = id then Record.merge (st.data i) sub else st.data i }

/-- Modelled from the spec: the Unified Query Facade's `write(entityId,
partialRecord)`: consult the registry for the entity's plan, decompose the
partial record per the plan and issue the per-store sub-writes; fail with
`RoutingError` when the entity type is unregistered. -/
def facadeWrite (r : Registry) (s : Stores) (id : EntityId) (p : Record) :
    Except RoutingError Stores :=
  match Registry.get r id.entityType with
  | some plan => Except.ok (fun c => storePut (s c) id (subRecordFor plan c p))
  | none => Except.error (RoutingError.unregisteredEntityType id.entityType)

/-- Modelled from the spec: the result of a facade read: the merged
logical record, plus an explicit marker set when some store was
unavailable and the record is therefore incomplete. -/
structure ReadResult where
  attributes : Record
  incomplete : Bool

/-- Modelled from the spec: the Unified Query Facade's `read(entityId)`:
gather the sub-records of the entity from every available store, merge
them into one logical record (missing sub-records are simply absent), and
flag the result incomplete when any store is unavailable.  A read never
fails: it always produces a `ReadResult`. -/
def facadeRead (s : Stores) (id : EntityId) : ReadResult :=
  { attributes :=
      (storeCategories.filter (fun c => (s c).available)).foldl
        (fun acc c => Record.merge acc ((s c).data id)) emptyRecord,
    incomplete := storeCategories.any (fun c => !(s c).available) }

/-! ## The Consistency Coordinator -/

/-- Modelled from the spec: the status of an intent record. -/
inductive IntentStatus where
  | pending
  | complete
  | failed
deriving DecidableEq, Repr

/-- Modelled from the spec: a durable intent record for a multi-store
write: intent identifier, entity, payload, target stores and status. -/
structure Intent where
  intentId : Nat
  entity : EntityId
  payload : Record
  targetStores : List StoreCategory
  status : IntentStatus

/-- Modelled from the spec: the coordinator-level state of one store
adapter: whether it is healthy (an unhealthy store times out and does not
acknowledge), and the writes it has applied, keyed by intent identifier
so that each adapter write is idempotent. -/
@[ext]
structure CStoreState where
  healthy : Bool
  applied : Nat → Option Record

/-- The joint coordinator-level state of the four store adapters. -/
abbrev CStores := StoreCategory → CStoreState

/-- Apply an intent's write to one store adapter: a healthy store records
the payload under the intent identifier (idempotently) and acknowledges; an
unhealthy store times out and is left unchanged. -/
def applyToStore (st : CStoreState) (i : Intent) : CStoreState :=
  if st.healthy then
    { st with applied := fun n => if n = i.intentId then some i.payload else st.applied n }
  else st

/-- Whether every target store of an intent acknowledges the write (an
adapter acknowledges exactly when it is healthy). -/
def storesAcknowledge (ss : CStores) (i : Intent) : Bool :=
  i.targetStores.all (fun c => (ss c).healthy)

/-- Modelled from the spec: one pass of the coordinator (the initial
application or a reconciliation retry): apply the intent to each target
store in the fixed deterministic order, then mark the intent COMPLETE when
every target store acknowledged and leave it PENDING otherwise. -/
def applyIntent (ss : CStores) (i : Intent) : CStores × Intent :=
  (fun c => if c ∈ i.targetStores then applyToStore (ss c) i else ss c,
   { i with status :=
      if storesAcknowledge ss i then IntentStatus.complete else IntentStatus.pending })

/-- Modelled from the spec: phase 1 of the intent protocol: persist an
intent record with status PENDING. -/
def mkIntent (n : Nat) (id : EntityId) (p : Record) (targets : List StoreCategory) : Intent :=
  { intentId := n, entity := id, payload := p,
    targetStores := targets, status := IntentStatus.pending }

/-- Modelled from the spec: a multi-store write: persist the PENDING
intent, then apply it to the target stores. -/
def multiStoreWrite (ss : CStores) (n : Nat) (id : EntityId) (p : Record)
    (targets : List StoreCategory) : CStores × Intent :=
  applyIntent ss (mkIntent n id p targets)

/-! ## Crop rotation -/

/-- Modelled from the spec: a PlantingEvent references a Field and a
plant family and carries start and end dates (as day numbers). -/
structure PlantingEvent where
  field : String
  family : String
  startDate : Nat
  endDate : Nat
deriving DecidableEq, Repr

/-- Modelled from the spec: two planting events conflict under the
rotation-restriction window `w` when they are on the same field, for the
same plant family, and their date ranges extended by the window overlap. -/
def rotationConflict (w : Nat) (e₁ e₂ : PlantingEvent) : Bool :=
  decide (e₁.field = e₂.field) && decide (e₁.family = e₂.family) &&
    decide (e₁.startDate ≤ e₂.endDate + w) && decide (e₂.startDate ≤ e₁.endDate + w)

/-- Modelled from the spec: the error rejecting an overlapping planting. -/
inductive RotationError where
  | overlappingPlanting
deriving DecidableEq, Repr

/-- Modelled from the spec: the write operation adding a planting event:
rejected when it conflicts with any existing event, accepted otherwise. -/
def addPlantingEvent (w : Nat) (events : List PlantingEvent) (e : PlantingEvent) :
    Except RotationError (List PlantingEvent) :=
  if events.any (fun e₂ => rotationConflict w e e₂) then
    Except.error RotationError.overlappingPlanting
  else
    Except.ok (e :: events)

/-- The planting-event states reachable from the empty state by
successful `addPlantingEvent` writes. -/
inductive ReachableEvents (w : Nat) : List PlantingEvent → Prop where
  | init : ReachableEvents w []
  | add {es es₂ : List PlantingEvent} {e : PlantingEvent} :
      ReachableEvents w es → addPlantingEvent w es e = Except.ok es₂ →
      ReachableEvents w es₂

/-! ## Concrete backend states used by the witnesses -/

/-- An available, empty store adapter. -/
def emptyStoreState : StoreState :=
  { available := true, data := fun _ => emptyRecord }

/-- All four stores available and empty. -/
def storesEx : Stores := fun _ => emptyStoreState

/-- An example plan: the `notes` attribute lives in the search store,
everything else in the structured store. -/
def planEx : DecompositionPlan :=
  fun a => if a = "notes" then StoreCategory.search else StoreCategory.structured

/-- An example registry registering the `Field` entity type. -/
def registryEx : Registry := [(("Field"), planEx)]

/-- An example entity identifier of the registered `Field` type. -/
def idEx : EntityId := { entityType := "Field", key := "field-1" }

/-- An example partial record carrying a `soil` attribute. -/
def recEx : Record := fun a => if a = "soil" then some ("clay") else none

/-- Store states agreeing with `storesEx` except that the search store is
unavailable. -/
def storesDownEx : Stores :=
  fun c =>
    if c = StoreCategory.search then { available := false, data := fun _ => emptyRecord }
    else emptyStoreState

/-- Like `storesDownEx`, but the unavailable search store holds junk data. -/
def storesDownEx₂ : Stores :=
  fun c =>
    if c = StoreCategory.search then
      { available := false, data := fun _ => fun a => if a = "soil" then some ("junk") else none }
    else emptyStoreState

/-- Coordinator stores where the search store is unhealthy and the rest
are healthy. -/
def cstoresEx : CStores :=
  fun c =>
    if c = StoreCategory.search then { healthy := false, applied := fun _ => none }
    else { healthy := true, applied := fun _ => none }

/-- Coordinator stores where every store is healthy. -/
def cstoresHealthyEx : CStores :=
  fun _ => { healthy := true, applied := fun _ => none }

/-- An example planting event. -/
def plantingEx₁ : PlantingEvent :=
  { field := "north-field", family := "brassica", startDate := 0, endDate := 100 }

/-- A second planting event of the same family on the same field, whose
range falls inside the 30-day rotation window after `plantingEx₁`. -/
def plantingEx₂ : PlantingEvent :=
  { field := "north-field", family := "brassica", startDate := 120, endDate := 200 }

/-! # Theorems -/

/-- C1: the program consists of the root shell component (tag hb-app), the
login page (tag hb-login), the home page (tag hb-home) and the
internationalization bootstrap module, and nothing else besides its test
and README: in particular no module is a scheduler, a storage engine, or
backend data-access code. -/
theorem repository_inventory :
    (repositoryModules.filterMap
        (fun m =>
          match m.kind with
          | ModuleKind.uiComponent t => some t
          | _ => none) = [("hb-app"), ("hb-login"), ("hb-home")]) ∧
    (∃ m ∈ repositoryModules, m.kind = ModuleKind.i18nBootstrap) ∧
    (∀ m ∈ repositoryModules,
        m.kind ≠ ModuleKind.scheduler ∧ m.kind ≠ ModuleKind.storageEngine ∧
          m.kind ≠ ModuleKind.backendDataAccess) ∧
    (∀ m ∈ repositoryModules, ModuleKind.isAppArtifact m.kind = true) := by
  decide

/-- C2: for every state of the hb-login component, changeLang sets the
i18n language to en when the current language is nl and to nl for every
other current language, and afterwards the component's lang state equals
the new i18n language. -/
theorem changeLang_language_toggle (s : LoginState) :
    (s.i18n.language = "nl" → (changeLang s).i18n.language = "en") ∧
    (s.i18n.language ≠ "nl" → (changeLang s).i18n.language = "nl") ∧
    (changeLang s).lang = (changeLang s).i18n.language := by
  by_cases h : s.i18n.language = "nl" <;>
    simp [changeLang, changeLanguage, h]

/-- Witness for C2: from language nl, changeLang switches to en; from
language en, it switches to nl. -/
theorem changeLang_language_toggle_witness :
    (changeLang loginNl).i18n.language = "en" ∧
      (changeLang loginEn).i18n.language = "nl" :=
  ⟨(changeLang_language_toggle loginNl).1 rfl,
   (changeLang_language_toggle loginEn).2.1 (by decide)⟩

/-- C9: changeLang sets the CSS custom property to red exactly when the
new language is en and to green exactly when the new language is nl, and
on the language set nl, en applying changeLang twice restores the original
language. -/
theorem changeLang_css_involution (s : LoginState) :
    ((changeLang s).cssPrimary = some ("red") ↔ (changeLang s).i18n.language = "en") ∧
    ((changeLang s).cssPrimary = some ("green") ↔ (changeLang s).i18n.language = "nl") ∧
    ((s.i18n.language = "nl" ∨ s.i18n.language = "en") →
      (changeLang (changeLang s)).i18n.language = s.i18n.language) := by
  by_cases h : s.i18n.language = "nl"
  · simp [changeLang, changeLanguage, h]
  · refine ⟨?_, ?_, ?_⟩
    · simp [changeLang, changeLanguage, h]
    · simp [changeLang, changeLanguage, h]
    · intro hcase
      rcases hcase with h₁ | h₂
      · exact absurd h₁ h
      · simp [changeLang, changeLanguage, h, h₂]

/-- Witness for C9: from language nl the CSS primary color becomes red,
and toggling twice restores nl. -/
theorem changeLang_css_involution_witness :
    (changeLang loginNl).cssPrimary = some ("red") ∧
      (changeLang (changeLang loginNl)).i18n.language = loginNl.i18n.language :=
  ⟨(changeLang_css_involution loginNl).1.mpr (by decide),
   (changeLang_css_involution loginNl).2.2 (Or.inl rfl)⟩

/-- C10: the hb-app service-worker update handler creates a toast with
message `New version available` and close button labelled `Reload`, and
the page reload happens only after the toast was presented and has begun
dismissing: any reload event in the trace comes strictly after any
present or will-dismiss event. -/
theorem sw_update_order (i j : Fin onSWUpdate.length)
    (hi : onSWUpdate.get i = SWUpdateEvent.reloadPage)
    (hj : onSWUpdate.get j = SWUpdateEvent.presentToast ∨
          onSWUpdate.get j = SWUpdateEvent.toastWillDismiss) :
    SWUpdateEvent.createToast ("New version available") true ("Reload") ∈ onSWUpdate ∧
      j < i := by
  have h : ∀ i j : Fin onSWUpdate.length,
      onSWUpdate.get i = SWUpdateEvent.reloadPage →
      (onSWUpdate.get j = SWUpdateEvent.presentToast ∨
        onSWUpdate.get j = SWUpdateEvent.toastWillDismiss) →
      SWUpdateEvent.createToast ("New version available") true ("Reload") ∈ onSWUpdate ∧
        j < i := by
    decide
  exact h i j hi hj

/-- Witness for C10: the reload event (position 3) comes after the
will-dismiss event (position 2). -/
theorem sw_update_order_witness :
    SWUpdateEvent.createToast ("New version available") true ("Reload") ∈ onSWUpdate ∧
      (⟨2, by decide⟩ : Fin onSWUpdate.length) < ⟨3, by decide⟩ :=
  sw_update_order ⟨3, by decide⟩ ⟨2, by decide⟩ (by decide) (Or.inr (by decide))

/-- C3: for every registered entity type and every attribute, the Store
Router's route returns a store adapter handle (totality), returns the same
handle on every call with the same arguments (determinism: it is a pure
lookup on the registry), and fails with RoutingError for every
unregistered entity type. -/
theorem route_contract (r : Registry) (entityType attr : String) :
    ((Registry.get r entityType).isSome = true →
      ∃ h : StoreHandle, route r entityType attr = Except.ok h) ∧
    (∀ h₁ h₂ : StoreHandle, route r entityType attr = Except.ok h₁ →
      route r entityType attr = Except.ok h₂ → h₁ = h₂) ∧
    (Registry.get r entityType = none →
      route r entityType attr =
        Except.error (RoutingError.unregisteredEntityType entityType)) := by
  refine ⟨?_, fun h₁ h₂ e₁ e₂ => Except.ok.inj (e₁.symm.trans e₂), ?_⟩
  · intro hs
    cases hget : Registry.get r entityType with
    | some plan =>
        exact ⟨{ category := plan attr }, by unfold route; rw [hget]⟩
    | none =>
        rw [hget] at hs
        exact absurd hs (by decide)
  · intro hnone
    unfold route
    rw [hnone]

/-- Witness for C3: routing the notes attribute of the registered Field
entity type yields a handle. -/
theorem route_contract_witness :
    ∃ h : StoreHandle, route registryEx ("Field") ("notes") = Except.ok h :=
  (route_contract registryEx ("Field") ("notes")).1 (by decide)

/-- Auxiliary: folding merges of pointwise-equal per-category records over
the same category list yields the same record. -/
theorem foldl_merge_congr {L : List StoreCategory} {f g : StoreCategory → Record}
    (acc : Record) (h : ∀ c ∈ L, f c = g c) :
    L.foldl (fun acc c => Record.merge acc (f c)) acc =
      L.foldl (fun acc c => Record.merge acc (g c)) acc := by
  induction L generalizing acc with
  | nil => rfl
  | cons c L₂ ih =>
      simp only [List.foldl_cons]
      rw [h c (List.mem_cons_self c L₂)]
      exact ih (Record.merge acc (g c)) (fun c₂ hc₂ => h c₂ (List.mem_cons_of_mem c hc₂))

/-- Auxiliary: every store category is in the fixed category list. -/
theorem mem_storeCategories (c : StoreCategory) : c ∈ storeCategories := by
  cases c <;> decide

/-- C7: a read never fails because a store is unavailable: the result of
read depends only on the availability flags and the contents of the
available stores (so the attribute groups come from the available stores),
its incomplete marker is set exactly when some store is unavailable, and
it is clear when all stores are available. -/
theorem read_partial_on_unavailable (s s₂ : Stores) (id : EntityId)
    (hav : ∀ c, (s c).available = (s₂ c).available)
    (hdata : ∀ c, (s c).available = true → (s c).data = (s₂ c).data) :
    facadeRead s id = facadeRead s₂ id ∧
    ((∃ c, (s c).available = false) → (facadeRead s id).incomplete = true) ∧
    ((∀ c, (s c).available = true) → (facadeRead s id).incomplete = false) := by
  refine ⟨?_, ?_, ?_⟩
  · have hfilter : storeCategories.filter (fun c => (s c).available) =
        storeCategories.filter (fun c => (s₂ c).available) :=
      List.filter_congr (fun c _ => hav c)
    have hpred : (fun c => !(s c).available) = (fun c => !(s₂ c).available) :=
      funext fun c => by rw [hav c]
    unfold facadeRead
    rw [hpred, hfilter]
    congr 1
    apply foldl_merge_congr
    intro c hc
    have hmem : (s₂ c).available = true := by
      simpa using (List.mem_filter.mp hc).2
    have hs : (s c).available = true := by rw [hav c]; exact hmem
    rw [hdata c hs]
  · rintro ⟨c, hc⟩
    show storeCategories.any (fun c => !(s c).available) = true
    rw [List.any_eq_true]
    exact ⟨c, mem_storeCategories c, by simp [hc]⟩
  · intro hall
    show storeCategories.any (fun c => !(s c).available) = false
    rw [List.any_eq_false]
    intro c hc
    simp [hall c]

/-- Witness for C7: with the search store down, a read still produces a
result that ignores the junk held by the unavailable store, and the
incomplete marker is set. -/
theorem read_partial_on_unavailable_witness :
    facadeRead storesDownEx₂ idEx = facadeRead storesDownEx idEx ∧
      (facadeRead storesDownEx₂ idEx).incomplete = true :=
  ⟨(read_partial_on_unavailable storesDownEx₂ storesDownEx idEx
      (fun c => by cases c <;> rfl)
      (fun c hc => by
        cases c <;> first | rfl | exact absurd hc (by decide))).1,
   (read_partial_on_unavailable storesDownEx₂ storesDownEx idEx
      (fun c => by cases c <;> rfl)
      (fun c hc => by
        cases c <;> first | rfl | exact absurd hc (by decide))).2.1
      ⟨StoreCategory.search, rfl⟩⟩

/-- Auxiliary: a fold of merges over categories none of which holds the
attribute leaves the accumulator's value of that attribute unchanged. -/
theorem foldl_merge_absent (L : List StoreCategory) (f : StoreCategory → Record)
    (a : String) (acc : Record) (h : ∀ c ∈ L, f c a = none) :
    (L.foldl (fun acc c => Record.merge acc (f c)) acc) a = acc a := by
  induction L generalizing acc with
  | nil => rfl
  | cons c L₂ ih =>
      simp only [List.foldl_cons]
      rw [ih (Record.merge acc (f c)) (fun c₂ hc₂ => h c₂ (List.mem_cons_of_mem c hc₂))]
      show Record.merge acc (f c) a = acc a
      unfold Record.merge
      rw [h c (List.mem_cons_self c L₂)]

/-- Auxiliary: a fold of merges over a category list in which exactly the
category holding the attribute yields a value produces that value. -/
theorem foldl_merge_single (L : List StoreCategory) (f : StoreCategory → Record)
    (a : String) (acc : Record) (c₀ : StoreCategory) (v : String)
    (hc₀ : c₀ ∈ L) (hv : f c₀ a = some v)
    (hother : ∀ c ∈ L, c ≠ c₀ → f c a = none) :
    (L.foldl (fun acc c => Record.merge acc (f c)) acc) a = some v := by
  induction L generalizing acc with
  | nil => cases hc₀
  | cons c L₂ ih =>
      simp only [List.foldl_cons]
      by_cases hmem : c₀ ∈ L₂
      · exact ih (Record.merge acc (f c)) hmem
          (fun c₂ hc₂ hne => hother c₂ (List.mem_cons_of_mem c hc₂) hne)
      · have hc : c₀ = c := by
          rcases List.mem_cons.mp hc₀ with h₁ | h₁
          · exact h₁
          · exact absurd h₁ hmem
        subst hc
        rw [foldl_merge_absent L₂ f a (Record.merge acc (f c₀))
          (fun c₂ hc₂ => hother c₂ (List.mem_cons_of_mem c₀ hc₂)
            (fun he => hmem (he ▸ hc₂)))]
        show Record.merge acc (f c₀) a = some v
        unfold Record.merge
        rw [hv]

/-- C4: for every registered entity and every partial record, writing the
record on the facade and then reading the entity, with every store
available (no failure injected) and every store holding only the
attributes the plan routes to it, returns a record whose attributes
include the written attributes unchanged. -/
theorem write_read_roundtrip (r : Registry) (s : Stores) (id : EntityId) (p : Record)
    (plan : DecompositionPlan)
    (hreg : Registry.get r id.entityType = some plan)
    (hav : ∀ c, (s c).available = true)
    (hconf : ∀ c a, plan a ≠ c → (s c).data id a = none) :
    ∃ s₂ : Stores, facadeWrite r s id p = Except.ok s₂ ∧
      ∀ a v, p a = some v → (facadeRead s₂ id).attributes a = some v := by
  refine ⟨fun c => storePut (s c) id (subRecordFor plan c p), ?_, ?_⟩
  · unfold facadeWrite
    rw [hreg]
  · intro a v hpv
    have hfilter : storeCategories.filter
        (fun c => (storePut (s c) id (subRecordFor plan c p)).available) =
        storeCategories :=
      List.filter_eq_self.mpr (fun c _ => by
        show (storePut (s c) id (subRecordFor plan c p)).available = true
        exact hav c)
    have hv : (storePut (s (plan a)) id (subRecordFor plan (plan a) p)).data id a = some v := by
      simp [storePut, subRecordFor, Record.merge, hpv]
    have hother : ∀ c ∈ storeCategories, c ≠ plan a →
        (storePut (s c) id (subRecordFor plan c p)).data id a = none := by
      intro c _ hne
      have hplan : plan a ≠ c := fun he => hne he.symm
      have hnone := hconf c a hplan
      simp [storePut, subRecordFor, Record.merge, hplan, hnone]
    show (storeCategories.filter
        (fun c => (storePut (s c) id (subRecordFor plan c p)).available)).foldl
        (fun acc c => Record.merge acc ((storePut (s c) id (subRecordFor plan c p)).data id))
        emptyRecord a = some v
    rw [hfilter]
    exact foldl_merge_single storeCategories
      (fun c => (storePut (s c) id (subRecordFor plan c p)).data id) a emptyRecord
      (plan a) v (mem_storeCategories (plan a)) hv hother

/-- Witness for C4: writing a soil attribute of a Field entity into the
empty, fully available stores and reading it back returns it unchanged. -/
theorem write_read_roundtrip_witness :
    ∃ s₂ : Stores, facadeWrite registryEx storesEx idEx recEx = Except.ok s₂ ∧
      ∀ a v, recEx a = some v → (facadeRead s₂ idEx).attributes a = some v :=
  write_read_roundtrip registryEx storesEx idEx recEx planEx rfl
    (fun _ => rfl) (fun _ _ _ => rfl)

/-- C5: when a target store times out during a multi-store write the
intent is persisted PENDING and stays PENDING after the pass; a subsequent
reconciliation pass executed while every target store is healthy
transitions it to COMPLETE; and any pass marks an intent COMPLETE only
once every target store acknowledges. -/
theorem intent_timeout_then_reconcile (ss : CStores) (n : Nat) (id : EntityId)
    (p : Record) (targets : List StoreCategory) (c₀ : StoreCategory)
    (hc₀ : c₀ ∈ targets) (hbad : (ss c₀).healthy = false) :
    (mkIntent n id p targets).status = IntentStatus.pending ∧
    (multiStoreWrite ss n id p targets).2.status = IntentStatus.pending ∧
    (∀ ss₂ : CStores, (∀ c ∈ targets, (ss₂ c).healthy = true) →
      (applyIntent ss₂ (multiStoreWrite ss n id p targets).2).2.status =
        IntentStatus.complete) ∧
    (∀ (ssx : CStores) (ix : Intent),
      (applyIntent ssx ix).2.status = IntentStatus.complete →
      storesAcknowledge ssx ix = true) := by
  have hack : storesAcknowledge ss (mkIntent n id p targets) = false := by
    rw [Bool.eq_false_iff]
    intro hall
    rw [storesAcknowledge, List.all_eq_true] at hall
    have hx := hall c₀ hc₀
    rw [hbad] at hx
    exact Bool.false_ne_true hx
  refine ⟨rfl, ?_, ?_, ?_⟩
  · show (if storesAcknowledge ss (mkIntent n id p targets) = true then
        IntentStatus.complete else IntentStatus.pending) = IntentStatus.pending
    rw [hack]
    rfl
  · intro ss₂ hall
    have hok : storesAcknowledge ss₂ (multiStoreWrite ss n id p targets).2 = true := by
      rw [storesAcknowledge, List.all_eq_true]
      intro c hc
      exact hall c hc
    show (if storesAcknowledge ss₂ (multiStoreWrite ss n id p targets).2 = true then
        IntentStatus.complete else IntentStatus.pending) = IntentStatus.complete
    rw [hok]
    rfl
  · intro ssx ix hcomp
    by_cases hackx : storesAcknowledge ssx ix = true
    · exact hackx
    · exfalso
      have hfalse : storesAcknowledge ssx ix = false := Bool.eq_false_iff.mpr hackx
      have hpend : (applyIntent ssx ix).2.status = IntentStatus.pending := by
        show (if storesAcknowledge ssx ix = true then
            IntentStatus.complete else IntentStatus.pending) = IntentStatus.pending
        rw [hfalse]
        rfl
      rw [hcomp] at hpend
      cases hpend

/-- Witness for C5: with the search store timed out, a write targeting the
structured and search stores leaves its intent PENDING; it completes on a
reconciliation pass over healthy stores, and completion implies all
acknowledgements. -/
theorem intent_timeout_then_reconcile_witness :
    (mkIntent 1 idEx recEx [StoreCategory.structured, StoreCategory.search]).status =
        IntentStatus.pending ∧
    (multiStoreWrite cstoresEx 1 idEx recEx
        [StoreCategory.structured, StoreCategory.search]).2.status =
        IntentStatus.pending ∧
    (∀ ss₂ : CStores,
      (∀ c ∈ [StoreCategory.structured, StoreCategory.search], (ss₂ c).healthy = true) →
      (applyIntent ss₂ (multiStoreWrite cstoresEx 1 idEx recEx
          [StoreCategory.structured, StoreCategory.search]).2).2.status =
        IntentStatus.complete) ∧
    (∀ (ssx : CStores) (ix : Intent),
      (applyIntent ssx ix).2.status = IntentStatus.complete →
      storesAcknowledge ssx ix = true) :=
  intent_timeout_then_reconcile cstoresEx 1 idEx recEx
    [StoreCategory.structured, StoreCategory.search] StoreCategory.search
    (by decide) rfl

/-- C8: replaying the coordinator on a partially applied multi-store write
is idempotent: applying the same intent (keyed by its intent identifier) a
second time leaves every store and the intent record exactly as after the
first application, with no duplicated effects. -/
theorem reconcile_idempotent (ss : CStores) (i : Intent) :
    applyIntent (applyIntent ss i).1 i = applyIntent ss i := by
  have hhealthy : ∀ c, ((applyIntent ss i).1 c).healthy = (ss c).healthy := by
    intro c
    show (if c ∈ i.targetStores then applyToStore (ss c) i else ss c).healthy =
      (ss c).healthy
    by_cases hc : c ∈ i.targetStores
    · rw [if_pos hc]
      unfold applyToStore
      by_cases hh : (ss c).healthy = true
      · rw [if_pos hh]
      · rw [if_neg hh]
    · rw [if_neg hc]
  have happly : ∀ st : CStoreState, applyToStore (applyToStore st i) i = applyToStore st i := by
    intro st
    by_cases hh : st.healthy = true
    · apply CStoreState.ext
      · simp [applyToStore, hh]
      · funext n
        by_cases hn : n = i.intentId <;> simp [applyToStore, hh, hn]
    · simp [applyToStore, hh]
  have hack₂ : storesAcknowledge (applyIntent ss i).1 i = storesAcknowledge ss i := by
    unfold storesAcknowledge
    have hfun : (fun c => ((applyIntent ss i).1 c).healthy) = (fun c => (ss c).healthy) :=
      funext hhealthy
    rw [hfun]
  have hfst : (applyIntent (applyIntent ss i).1 i).1 = (applyIntent ss i).1 := by
    funext c
    show (if c ∈ i.targetStores then applyToStore ((applyIntent ss i).1 c) i
        else (applyIntent ss i).1 c) = (applyIntent ss i).1 c
    by_cases hc : c ∈ i.targetStores
    · rw [if_pos hc]
      have hcc : (applyIntent ss i).1 c = applyToStore (ss c) i := by
        show (if c ∈ i.targetStores then applyToStore (ss c) i else ss c) = _
        rw [if_pos hc]
      rw [hcc, happly (ss c)]
    · rw [if_neg hc]
  have hsnd : (applyIntent (applyIntent ss i).1 i).2 = (applyIntent ss i).2 := by
    show ({ i with status := if storesAcknowledge (applyIntent ss i).1 i = true then
        IntentStatus.complete else IntentStatus.pending } : Intent) =
      { i with status := if storesAcknowledge ss i = true then
        IntentStatus.complete else IntentStatus.pending }
    rw [hack₂]
  exact Prod.ext hfst hsnd

/-- Auxiliary: the rotation conflict check, in propositional form. -/
theorem rotationConflict_eq_true_iff (w : Nat) (e₁ e₂ : PlantingEvent) :
    rotationConflict w e₁ e₂ = true ↔
      (e₁.field = e₂.field ∧ e₁.family = e₂.family ∧
        e₁.startDate ≤ e₂.endDate + w ∧ e₂.startDate ≤ e₁.endDate + w) := by
  unfold rotationConflict
  simp [Bool.and_eq_true, and_assoc]

/-- Auxiliary: the rotation conflict relation is symmetric. -/
theorem rotationConflict_symm (w : Nat) (e₁ e₂ : PlantingEvent) :
    rotationConflict w e₁ e₂ = rotationConflict w e₂ e₁ := by
  by_cases h : rotationConflict w e₁ e₂ = true
  · rw [h]
    have h₂ := (rotationConflict_eq_true_iff w e₁ e₂).mp h
    exact ((rotationConflict_eq_true_iff w e₂ e₁).mpr
      ⟨h₂.1.symm, h₂.2.1.symm, h₂.2.2.2, h₂.2.2.1⟩).symm
  · have h₁ : rotationConflict w e₁ e₂ = false := Bool.eq_false_iff.mpr h
    have h₂ : rotationConflict w e₂ e₁ = false := by
      rw [Bool.eq_false_iff]
      intro hx
      apply h
      have hy := (rotationConflict_eq_true_iff w e₂ e₁).mp hx
      exact (rotationConflict_eq_true_iff w e₁ e₂).mpr
        ⟨hy.1.symm, hy.2.1.symm, hy.2.2.2, hy.2.2.1⟩
    rw [h₁, h₂]

/-- Auxiliary: every state reachable by accepted planting writes is
pairwise conflict-free. -/
theorem reachable_no_conflict {w : Nat} {es : List PlantingEvent}
    (hr : ReachableEvents w es) :
    es.Pairwise (fun e₁ e₂ => rotationConflict w e₁ e₂ = false) := by
  induction hr with
  | init => exact List.Pairwise.nil
  | @add es es₂ e hr₂ hok ih =>
      unfold addPlantingEvent at hok
      by_cases hany : es.any (fun e₂ => rotationConflict w e e₂) = true
      · rw [if_pos hany] at hok
        cases hok
      · rw [if_neg hany] at hok
        have hfalse : es.any (fun e₂ => rotationConflict w e e₂) = false :=
          Bool.eq_false_iff.mpr hany
        have hes : es₂ = e :: es := (Except.ok.inj hok).symm
        subst hes
        apply List.Pairwise.cons
        · intro e₂ he₂
          exact Bool.eq_false_iff.mpr (List.any_eq_false.mp hfalse e₂ he₂)
        · exact ih

/-- C6: in every reachable planting-event state, no two planting events of
the same family overlap on the same field within the rotation window, and
any write that would create a second overlapping planting event is
rejected. -/
theorem rotation_exclusion (w : Nat) (es : List PlantingEvent) (e : PlantingEvent)
    (hr : ReachableEvents w es) :
    ((∃ e₂ ∈ es, rotationConflict w e e₂ = true) →
      addPlantingEvent w es e = Except.error RotationError.overlappingPlanting) ∧
    (∀ e₁ ∈ es, ∀ e₂ ∈ es, e₁ ≠ e₂ → rotationConflict w e₁ e₂ = false) := by
  constructor
  · rintro ⟨e₂, he₂, hconf⟩
    unfold addPlantingEvent
    rw [if_pos (List.any_eq_true.mpr ⟨e₂, he₂, hconf⟩)]
  · intro e₁ he₁ e₂ he₂ hne
    have hpw := reachable_no_conflict hr
    have hsymm : Symmetric (fun a b : PlantingEvent => rotationConflict w a b = false) := by
      intro a b hab
      rw [rotationConflict_symm w b a]
      exact hab
    exact List.Pairwise.forall hsymm hpw he₁ he₂ hne

/-- Witness for C6: a brassica planting starting 20 days after a previous
brassica planting ended on the same field is rejected under a 30-day
rotation window. -/
theorem rotation_exclusion_witness :
    addPlantingEvent 30 [plantingEx₁] plantingEx₂ =
      Except.error RotationError.overlappingPlanting := by
  have h₁ : addPlantingEvent 30 [] plantingEx₁ = Except.ok [plantingEx₁] := rfl
  exact (rotation_exclusion 30 [plantingEx₁] plantingEx₂
    (ReachableEvents.add ReachableEvents.init h₁)).1
    ⟨plantingEx₁, by decide, by decide⟩

end Herenboeren
